import Mathlib

/-!
A shallow embedding, in Lean 4, of the PitchIntel backend modules
`conversationMemory.ts`, `responseCache.ts`, `tokenTracker.ts` and
`openaiClient.ts`, together with theorems settling the specification
claims about them.

Modelling conventions:
* JavaScript numbers that hold integer quantities (timestamps, token
  counts, lengths, delays) are modelled as `Nat`; quantities that the
  code subtracts from (`totalTokens`) are modelled as `Int` so that the
  embedding of `-=` is exact; monetary costs and temperatures are
  modelled as exact rationals `ℚ` (the float operations the code
  performs on them are modelled by their exact counterparts).
* `JavaScript`'s `Map` is modelled as an association list in insertion
  order (`Map.set` of a fresh key appends, of an existing key replaces
  in place, `Map.delete` filters), which matches the iteration order
  semantics of `Map`.
* `x || y` on a possibly-`undefined` number `x` is `jsOrNat`: `0` and
  `undefined` both fall through to `y`.
* `String.prototype.length` counts UTF-16 code units (`jsLength`).
* `Math.ceil(len / 4)` on a `Nat` length is `(len + 3) / 4` and
  `Math.ceil(len / 3.5)` is `(2 * len + 6) / 7`; both are exact for all
  lengths at which double-precision division is exact around integers.
-/

/-- Width of a character in UTF-16 code units (JS `String.length`). -/
def jsCharWidth (c : Char) : Nat :=
  if 0x10000 ≤ c.toNat then 2 else 1

/-- JS `String.prototype.length`: number of UTF-16 code units. -/
def jsLength (s : String) : Nat :=
  (s.data.map jsCharWidth).sum

/-- JS `x || y` for an optional number `x`: `0` and `undefined` are falsy. -/
def jsOrNat (x : Option Nat) (y : Nat) : Nat :=
  match x with
  | some t => if t = 0 then y else t
  | none => y

/-- Clamp a possibly negative JS array index to `[0, len]`,
as `Array.prototype.slice` does. -/
def jsClampIndex (len : Nat) (i : Int) : Nat :=
  if i < 0 then ((len : Int) + i).toNat else min i.toNat len

/-- JS `Array.prototype.slice(start, stop)`. -/
def jsSlice {α : Type} (xs : List α) (start stop : Int) : List α :=
  (xs.take (jsClampIndex xs.length stop)).drop (jsClampIndex xs.length start)

/-- JS `Array.prototype.slice(start)` (one-argument form). -/
def jsSlice1 {α : Type} (xs : List α) (start : Int) : List α :=
  jsSlice xs start xs.length

theorem jsSlice_zero_eq_take {α : Type} (xs : List α) (stop : Int) :
    jsSlice xs 0 stop = xs.take (jsClampIndex xs.length stop) := by
  simp [jsSlice, jsClampIndex]

theorem jsClampIndex_length (len : Nat) : jsClampIndex len (len : Int) = len := by
  unfold jsClampIndex
  rw [if_neg (by omega)]
  omega

theorem jsSlice1_eq_drop {α : Type} (xs : List α) (start : Int) :
    jsSlice1 xs start = xs.drop (jsClampIndex xs.length start) := by
  simp [jsSlice1, jsSlice, jsClampIndex_length, List.take_length]

namespace ConversationMemory

/-- Message roles of `conversationMemory.ts`. -/
inductive Role where
  | system
  | user
  | assistant
deriving DecidableEq, Repr

/-- The `'user' | 'assistant'` argument type of `addMessage`. -/
inductive ChatRole where
  | user
  | assistant
deriving DecidableEq, Repr

def ChatRole.toRole : ChatRole → Role
  | .user => .user
  | .assistant => .assistant

/-- `interface ConversationMessage` of `conversationMemory.ts`.
`tokens` is an optional field in the source. -/
structure ConversationMessage where
  role : Role
  content : String
  timestamp : Nat
  tokens : Option Nat
deriving DecidableEq, Repr

/-- `interface Conversation` of `conversationMemory.ts`. -/
structure Conversation where
  id : String
  messages : List ConversationMessage
  createdAt : Nat
  lastActive : Nat
  systemPrompt : Option String
  totalTokens : Int
deriving DecidableEq, Repr

def MAX_MESSAGES_PER_CONVERSATION : Nat := 50

def MAX_TOKENS_PER_CONVERSATION : Int := 8000

/-- `MAX_TOKENS_PER_CONVERSATION * 0.8`; `8000 * 0.8 = 6400` exactly in
double-precision floats. -/
def tokenTrimThreshold : Int := 6400

/-- `estimateTokens`: `Math.ceil(text.length / 4)`. -/
def estimateTokens (text : String) : Nat :=
  (jsLength text + 3) / 4

def isSystem (m : ConversationMessage) : Bool :=
  m.role == Role.system

/-- The token value a trim reads from a message: `msg.tokens || 0`. -/
def msgTokens (m : ConversationMessage) : Int :=
  ((m.tokens.getD 0 : Nat) : Int)

/-- Sum of the stored messages' token estimates. -/
def msgSum (l : List ConversationMessage) : Int :=
  (l.map msgTokens).sum

/-- The `while` loop of `trimConversation`: repeatedly remove the oldest
non-system message while the running total is above 80% of the token
ceiling and more than 2 non-system messages remain. -/
def trimLoop : List ConversationMessage → Int → List ConversationMessage × Int
  | [], total => ([], total)
  | m :: rest, total =>
    if tokenTrimThreshold < total ∧ 2 < (m :: rest).length then
      trimLoop rest (total - msgTokens m)
    else
      (m :: rest, total)

/-- `trimConversation` of `conversationMemory.ts`. -/
def trimConversation (c : Conversation) : Conversation :=
  let systemMessages := c.messages.filter isSystem
  let nonSystemMessages := c.messages.filter (fun m => !(isSystem m))
  let r := trimLoop nonSystemMessages c.totalTokens
  { c with messages := systemMessages ++ r.1, totalTokens := r.2 }

/-- `trimMessages` of `conversationMemory.ts`. -/
def trimMessages (c : Conversation) : Conversation :=
  let systemMessages := c.messages.filter isSystem
  let nonSystemMessages := c.messages.filter (fun m => !(isSystem m))
  let keepCount : Int := (MAX_MESSAGES_PER_CONVERSATION : Int) - systemMessages.length
  let keptMessages := jsSlice1 nonSystemMessages (-keepCount)
  let removedMessages := jsSlice nonSystemMessages 0 (-keepCount)
  let removedTokens : Int := msgSum removedMessages
  { c with totalTokens := c.totalTokens - removedTokens,
           messages := systemMessages ++ keptMessages }

/-- `createConversation` of `conversationMemory.ts`, with the generated id
and the current time as explicit parameters. -/
def createConversation (systemPrompt : Option String) (now : Nat) (id : String) :
    Conversation :=
  { id := id
    messages :=
      match systemPrompt with
      | some sp => [⟨Role.system, sp, now, some (estimateTokens sp)⟩]
      | none => []
    createdAt := now
    lastActive := now
    systemPrompt := systemPrompt
    totalTokens :=
      match systemPrompt with
      | some sp => (estimateTokens sp : Int)
      | none => 0 }

/-- The per-conversation body of `addMessage`: the token-ceiling check and
trim, the push, the `lastActive`/`totalTokens` update, and the
message-count trim. -/
def addMessageConv (c : Conversation) (role : ChatRole) (content : String)
    (tokens : Option Nat) (now : Nat) : Conversation :=
  let estimatedTokens := jsOrNat tokens (estimateTokens content)
  let message : ConversationMessage := ⟨role.toRole, content, now, some estimatedTokens⟩
  let c1 :=
    if MAX_TOKENS_PER_CONVERSATION < c.totalTokens + (estimatedTokens : Int) then
      trimConversation c
    else c
  let c2 := { c1 with
      messages := c1.messages ++ [message]
      lastActive := now
      totalTokens := c1.totalTokens + (estimatedTokens : Int) }
  if MAX_MESSAGES_PER_CONVERSATION < c2.messages.length then trimMessages c2 else c2

/-- The conversation store: a `Map<string, Conversation>` in insertion order. -/
abbrev Store := List (String × Conversation)

def storeLookup (s : Store) (id : String) : Option Conversation :=
  (s.find? (fun p => p.1 == id)).map (fun p => p.2)

/-- In-place mutation of the conversation object held under `id`. -/
def storeUpdate (s : Store) (id : String) (c : Conversation) : Store :=
  s.map (fun p => if p.1 == id then (p.1, c) else p)

/-- `addMessage` of `conversationMemory.ts` at the store level: returns the
boolean result and the updated store. -/
def addMessage (s : Store) (id : String) (role : ChatRole) (content : String)
    (tokens : Option Nat) (now : Nat) : Bool × Store :=
  match storeLookup s id with
  | none => (false, s)
  | some c => (true, storeUpdate s id (addMessageConv c role content tokens now))

/-- `getConversation` of `conversationMemory.ts`: returns a copy of the
message list and updates `lastActive` to the current time. -/
def getConversation (s : Store) (id : String) (now : Nat) :
    Option (List ConversationMessage) × Store :=
  match storeLookup s id with
  | none => (none, s)
  | some c => (some c.messages, storeUpdate s id { c with lastActive := now })

/-- The `{role, content}` projection returned by `getFormattedMessages`. -/
structure FormattedMessage where
  role : Role
  content : String
deriving DecidableEq, Repr

/-- `getFormattedMessages` of `conversationMemory.ts`. -/
def getFormattedMessages (s : Store) (id : String) (now : Nat) :
    Option (List FormattedMessage) × Store :=
  let r := getConversation s id now
  match r.1 with
  | none => (none, r.2)
  | some msgs => (some (msgs.map (fun m => ⟨m.role, m.content⟩)), r.2)

/-- The token-accounting invariant: `totalTokens` is the sum of the stored
messages' token estimates. -/
def tokenInvariant (c : Conversation) : Prop :=
  c.totalTokens = msgSum c.messages

/-- One `addMessage` request in a call sequence. -/
structure AddRequest where
  role : ChatRole
  content : String
  tokens : Option Nat
  now : Nat

def runRequests (c : Conversation) (reqs : List AddRequest) : Conversation :=
  reqs.foldl (fun c r => addMessageConv c r.role r.content r.tokens r.now) c

end ConversationMemory

namespace ResponseCache

/-- `interface CacheEntry` of `responseCache.ts`; the `unknown` payload is a
type parameter. -/
structure CacheEntry (α : Type) where
  data : α
  timestamp : Nat
  expiresAt : Nat
  hits : Nat
deriving DecidableEq, Repr

/-- The `Map<string, CacheEntry>` in insertion order. -/
abbrev Cache (α : Type) := List (String × CacheEntry α)

def MAX_SIZE : Nat := 1000

def DEFAULT_TTL : Nat := 30 * 60 * 1000

/-- `Map.prototype.set`: replace in place when the key exists, append
otherwise. -/
def mapSet {α : Type} (c : Cache α) (k : String) (e : CacheEntry α) : Cache α :=
  if c.any (fun p => p.1 == k) then
    c.map (fun p => if p.1 == k then (p.1, e) else p)
  else
    c ++ [(k, e)]

/-- `Map.prototype.delete`. -/
def mapDelete {α : Type} (c : Cache α) (k : String) : Cache α :=
  c.filter (fun p => !(p.1 == k))

/-- The scan of `evictOldest`: fold over the entries keeping the key of the
first entry whose timestamp is strictly below the running minimum, which
starts at `Date.now()`. -/
def findOldest {α : Type} (c : Cache α) (now : Nat) : Option String × Nat :=
  c.foldl
    (fun acc p => if p.2.timestamp < acc.2 then (some p.1, p.2.timestamp) else acc)
    (none, now)

/-- `evictOldest` of `responseCache.ts`. -/
def evictOldest {α : Type} (c : Cache α) (now : Nat) : Cache α :=
  match (findOldest c now).1 with
  | some k => mapDelete c k
  | none => c

/-- `set` of `responseCache.ts`: evict when at capacity, then insert with
`expiresAt = now + (customTTL || ttl)`. -/
def set {α : Type} (c : Cache α) (now : Nat) (k : String) (d : α)
    (ttl : Nat) (customTTL : Option Nat) : Cache α :=
  let c1 := if MAX_SIZE ≤ c.length then evictOldest c now else c
  mapSet c1 k ⟨d, now, now + jsOrNat customTTL ttl, 0⟩

/-- The `{role, content}` objects inside the `data` record passed to
`createCacheKey`. -/
structure KeyMessage where
  role : String
  content : String
deriving DecidableEq, Repr

/-- The `data: Record<string, unknown>` argument of `createCacheKey`.
`messages` is `some` list when `Array.isArray(data.messages)` holds and
`none` when the field is absent; `temperature` and `systemPrompt` are
optional fields; `rest` stands for any further properties of the record,
which `createCacheKey` never reads. -/
structure KeyData where
  messages : Option (List KeyMessage)
  temperature : Option ℚ
  systemPrompt : Option String
  rest : List (String × String)
deriving DecidableEq, Repr

/-- JS whitespace as recognised by `String.prototype.trim`. -/
def jsIsWhitespace (c : Char) : Bool :=
  c.toNat = 9 ∨ c.toNat = 10 ∨ c.toNat = 11 ∨ c.toNat = 12 ∨ c.toNat = 13 ∨
  c.toNat = 32 ∨ c.toNat = 0xA0 ∨ c.toNat = 0x1680 ∨
  (0x2000 ≤ c.toNat ∧ c.toNat ≤ 0x200A) ∨
  c.toNat = 0x2028 ∨ c.toNat = 0x2029 ∨ c.toNat = 0x202F ∨
  c.toNat = 0x205F ∨ c.toNat = 0x3000 ∨ c.toNat = 0xFEFF

/-- JS `String.prototype.trim`. -/
def jsTrim (s : String) : String :=
  ⟨(((s.data.dropWhile jsIsWhitespace).reverse.dropWhile jsIsWhitespace).reverse)⟩

/-- JS `Math.round`: round half towards positive infinity. -/
def jsRound (q : ℚ) : Int :=
  (q + 1 / 2).floor

/-- `Math.round(t * 100) / 100`. -/
def roundTemp (q : ℚ) : ℚ :=
  (jsRound (q * 100) : ℚ) / 100

/-- The normalized record that `createCacheKey` builds and then
`JSON.stringify`s.  `JSON.stringify` is injective on records of this
shape (fields in fixed order, `undefined` fields uniformly omitted), so
equality of `NormalizedKey`s models equality of the fingerprint
strings. -/
structure NormalizedKey where
  endpoint : String
  messages : Option (List KeyMessage)
  temperature : Option ℚ
  systemPrompt : Option String
deriving DecidableEq, Repr

/-- `createCacheKey` of `responseCache.ts`: trim each message content,
round the temperature to 2 decimal places, carry `systemPrompt` through,
and drop every other property of `data`. -/
def createCacheKey (endpoint : String) (data : KeyData) : NormalizedKey :=
  { endpoint := endpoint
    messages :=
      match data.messages with
      | some ms => some (ms.map (fun m => ⟨m.role, jsTrim m.content⟩))
      | none => none
    temperature :=
      match data.temperature with
      | some t => some (roundTemp t)
      | none => none
    systemPrompt := data.systemPrompt }

/-- A cache of `MAX_SIZE` entries with distinct keys that all carry the
same creation timestamp `t`. -/
def fullCacheAt (t : Nat) : Cache Nat :=
  (List.range MAX_SIZE).map
    (fun i => (String.mk (List.replicate i 'k'), ⟨0, t, t + DEFAULT_TTL, 0⟩))

end ResponseCache

namespace TokenTracker

/-- `interface TokenUsage` of `tokenTracker.ts`. -/
structure TokenUsage where
  endpoint : String
  tokens : Nat
  timestamp : Nat
  cost : ℚ
deriving DecidableEq, Repr

/-- The UTC day of a millisecond timestamp.  Two timestamps produce the
same `new Date(t).toISOString().split("T")[0]` string exactly when they
fall on the same UTC day. -/
def dayOf (t : Nat) : Nat :=
  t / 86400000

/-- The record returned by `getTodaysUsage`. -/
structure DailyUsage where
  tokens : Nat
  cost : ℚ
  requests : Nat
deriving DecidableEq, Repr

/-- `getTodaysUsage` of `tokenTracker.ts`, with the current time as an
explicit parameter. -/
def getTodaysUsage (usage : List TokenUsage) (now : Nat) : DailyUsage :=
  let todayUsage := usage.filter (fun u => dayOf u.timestamp == dayOf now)
  { tokens := (todayUsage.map (fun u => u.tokens)).sum
    cost := (todayUsage.map (fun u => u.cost)).sum
    requests := todayUsage.length }

/-- The record returned by `checkDailyLimits`. -/
structure LimitCheck where
  costExceeded : Bool
  tokensExceeded : Bool
deriving DecidableEq, Repr

/-- `checkDailyLimits` of `tokenTracker.ts`: `today.cost >= maxDailyCost`
and `today.tokens >= maxDailyTokens`. -/
def checkDailyLimits (usage : List TokenUsage) (now : Nat)
    (maxDailyCost : ℚ) (maxDailyTokens : Nat) : LimitCheck :=
  let today := getTodaysUsage usage now
  { costExceeded := decide (maxDailyCost ≤ today.cost)
    tokensExceeded := decide (maxDailyTokens ≤ today.tokens) }

end TokenTracker

namespace OpenAIClient

/-- A thrown JS error as `createChatCompletion` inspects it: an optional
`status` property and a message. -/
structure JsError where
  status : Option Int
  message : String
deriving DecidableEq, Repr

/-- What one provider call does: succeed with a response, or throw. -/
inductive Outcome where
  | ok (content : String) (totalTokens promptTokens completionTokens : Nat)
  | err (e : JsError)

/-- The `{content, tokensUsed, cost}` result of `createChatCompletion`. -/
structure CompletionSuccess where
  content : String
  tokensUsed : Nat
  cost : ℚ
deriving DecidableEq, Repr

/-- The observable behaviour of one `createChatCompletion` call: its
result, the delays it slept (in order), the number of provider attempts
it made, and the `rateLimitDelay` instance field it leaves behind. -/
structure RunResult where
  result : Except JsError CompletionSuccess
  sleeps : List Nat
  attemptsMade : Nat
  finalRateLimitDelay : Nat

/-- `MODEL_COSTS` of `openaiClient.ts` (per 1M tokens). -/
def MODEL_COSTS : List (String × ℚ × ℚ) :=
  [("gpt-4o-mini", (0.15, 0.6)),
   ("gpt-4", (30.0, 60.0)),
   ("gpt-4-turbo", (10.0, 30.0)),
   ("gpt-4o", (2.5, 10.0))]

/-- `calculateCost` of `openaiClient.ts`; the boolean records whether the
unknown-model warning was emitted. -/
def calculateCost (model : String) (inputTokens outputTokens : Nat) : ℚ × Bool :=
  match MODEL_COSTS.lookup model with
  | none =>
    (((inputTokens : ℚ) * 0.15 + (outputTokens : ℚ) * 0.6) / 1000000, true)
  | some pricing =>
    (((inputTokens : ℚ) * pricing.1 + (outputTokens : ℚ) * pricing.2) / 1000000, false)

/-- `isRateLimitError` of `openaiClient.ts`. -/
def isRateLimitError (e : JsError) : Bool :=
  match e.status with
  | some s => s == 429
  | none => false

/-- `isRetriableError` of `openaiClient.ts`. -/
def isRetriableError (e : JsError) : Bool :=
  match e.status with
  | some s => 500 ≤ s ∨ s = 408 ∨ s = 429
  | none => false

/-- `Math.min(baseDelay * Math.pow(2, attempt), maxDelay)`. -/
def backoffDelay (baseDelay maxDelay attempt : Nat) : Nat :=
  min (baseDelay * 2 ^ attempt) maxDelay

/-- Two hex digits of a byte, lower case, as `JSON.stringify` writes
control characters. -/
def hexDigit (n : Nat) : Char :=
  if n < 10 then Char.ofNat (48 + n) else Char.ofNat (87 + n)

/-- JSON escaping of one character, as `JSON.stringify` performs it on
strings of basic-plane characters. -/
def jsonEscapeChar (c : Char) : List Char :=
  if c = '"' then ['\\', '"']
  else if c = '\\' then ['\\', '\\']
  else if c.toNat = 8 then ['\\', 'b']
  else if c.toNat = 9 then ['\\', 't']
  else if c.toNat = 10 then ['\\', 'n']
  else if c.toNat = 12 then ['\\', 'f']
  else if c.toNat = 13 then ['\\', 'r']
  else if c.toNat < 32 then
    ['\\', 'u', '0', '0', hexDigit (c.toNat / 16), hexDigit (c.toNat % 16)]
  else [c]

def jsonEscape (s : String) : String :=
  ⟨(s.data.map jsonEscapeChar).flatten⟩

/-- A chat message as passed to the OpenAI SDK. -/
structure ChatMessage where
  role : String
  content : String
deriving DecidableEq, Repr

/-- `JSON.stringify` of one `{role, content}` message object. -/
def jsonStringifyMessage (m : ChatMessage) : String :=
  "\x7b\"role\":\"" ++ jsonEscape m.role ++ "\",\"content\":\"" ++
    jsonEscape m.content ++ "\"\x7d"

/-- `JSON.stringify(messages)` for the message array. -/
def jsonStringify (messages : List ChatMessage) : String :=
  "[" ++ String.intercalate "," (messages.map jsonStringifyMessage) ++ "]"

/-- `estimateTokensSync`: `Math.ceil(text.length / 3.5) = ⌈2·len/7⌉`. -/
def estimateTokensSync (text : String) : Nat :=
  (2 * jsLength text + 6) / 7

/-- The `options` argument of `createChatCompletion` with its defaults. -/
structure ChatOptions where
  model : String := "gpt-4o-mini"
  temperature : ℚ := 0.7
  maxTokens : Nat := 2000
  maxInputTokens : Nat := 100000

/-- The `retryOptions` argument with its defaults. -/
structure RetryOptions where
  maxRetries : Nat := 3
  baseDelay : Nat := 1000
  maxDelay : Nat := 10000

/-- The error thrown by the pre-flight input-size check. -/
def inputTooLargeError (estimated limit : Nat) : JsError :=
  ⟨none, "Input too large: " ++ toString estimated ++
    " tokens exceeds limit of " ++ toString limit⟩

/-- The `for` loop of `createChatCompletion`.  `fuel` is
`maxRetries + 1 - attempt`; each iteration first sleeps any pending
`rateLimitDelay`, then consults the provider (`oracle attempt`).  A 429
failure stores its backoff delay in `rateLimitDelay` (slept at the top
of the next iteration); any other retriable failure sleeps immediately;
everything else breaks out and the stored error is rethrown. -/
def attemptLoop (oracle : Nat → Outcome) (model : String)
    (maxRetries baseDelay maxDelay : Nat) :
    Nat → Nat → Nat → Option JsError → List Nat → RunResult
  | 0, attempt, rld, lastError, sleeps =>
    { result := .error (lastError.getD ⟨none, "Unknown error occurred"⟩)
      sleeps := sleeps
      attemptsMade := attempt
      finalRateLimitDelay := rld }
  | fuel + 1, attempt, rld, _lastError, sleeps =>
    let sleeps' := if 0 < rld then sleeps ++ [rld] else sleeps
    match oracle attempt with
    | .ok content total prompt completion =>
      { result := .ok ⟨content, total, (calculateCost model prompt completion).1⟩
        sleeps := sleeps'
        attemptsMade := attempt + 1
        finalRateLimitDelay := 0 }
    | .err e =>
      if isRateLimitError e then
        if attempt < maxRetries then
          attemptLoop oracle model maxRetries baseDelay maxDelay
            fuel (attempt + 1) (backoffDelay baseDelay maxDelay attempt) (some e) sleeps'
        else
          { result := .error e
            sleeps := sleeps'
            attemptsMade := attempt + 1
            finalRateLimitDelay := backoffDelay baseDelay maxDelay attempt }
      else if isRetriableError e ∧ attempt < maxRetries then
        attemptLoop oracle model maxRetries baseDelay maxDelay
          fuel (attempt + 1) 0 (some e)
          (sleeps' ++ [backoffDelay baseDelay maxDelay attempt])
      else
        { result := .error e
          sleeps := sleeps'
          attemptsMade := attempt + 1
          finalRateLimitDelay := 0 }

/-- `createChatCompletion` of `openaiClient.ts`: the pre-flight input-size
check followed by the retry loop.  `rld0` is the `rateLimitDelay`
instance field at entry (0 on a fresh client). -/
def createChatCompletion (messages : List ChatMessage) (opts : ChatOptions)
    (ropts : RetryOptions) (oracle : Nat → Outcome) (rld0 : Nat) : RunResult :=
  let estimatedInputTokens := estimateTokensSync (jsonStringify messages)
  if opts.maxInputTokens < estimatedInputTokens then
    { result := .error (inputTooLargeError estimatedInputTokens opts.maxInputTokens)
      sleeps := []
      attemptsMade := 0
      finalRateLimitDelay := rld0 }
  else
    attemptLoop oracle opts.model ropts.maxRetries ropts.baseDelay ropts.maxDelay
      (ropts.maxRetries + 1) 0 rld0 none []

/-- What the retry loop guarantees from attempt `attempt` onwards, given
pending rate-limit delay `rld` and already-performed sleeps `sleeps`:
the attempt budget is respected, a further attempt follows a failure
only when it was retriable, the slept delays follow the capped
exponential-backoff schedule, a non-retriable failure is rethrown
immediately, and a retriable failure within the budget is retried. -/
def LoopSpec (oracle : Nat → Outcome) (maxRetries baseDelay maxDelay attempt rld : Nat)
    (sleeps : List Nat) (r : RunResult) : Prop :=
  (attempt < r.attemptsMade ∧ r.attemptsMade ≤ maxRetries + 1) ∧
  (∀ n, attempt ≤ n → n + 1 < r.attemptsMade →
    ∃ e, oracle n = .err e ∧ isRetriableError e = true) ∧
  (r.sleeps = (sleeps ++ (if 0 < rld then [rld] else [])) ++
    (List.range' attempt (r.attemptsMade - 1 - attempt)).map
      (backoffDelay baseDelay maxDelay)) ∧
  (∀ n e, attempt ≤ n → n < r.attemptsMade → oracle n = .err e →
    isRetriableError e = false →
    r.result = .error e ∧ r.attemptsMade = n + 1) ∧
  (∀ n e, attempt ≤ n → n < r.attemptsMade → oracle n = .err e →
    isRetriableError e = true → n < maxRetries → n + 1 < r.attemptsMade)

/-- A test provider behaviour: one HTTP 503 failure, then success. -/
def demoOracle : Nat → Outcome :=
  fun n => if n = 0 then .err ⟨some 503, "Service Unavailable"⟩
           else .ok "done" 10 6 4

def demoOptions : ChatOptions := ⟨"gpt-4o-mini", 1, 2000, 100000⟩

/-- Options whose `maxInputTokens` ceiling is tiny, for exercising the
pre-flight input-size failure. -/
def tinyInputOptions : ChatOptions := ⟨"gpt-4o-mini", 1, 2000, 1⟩

def demoRetryOptions : RetryOptions := ⟨3, 1000, 10000⟩

end OpenAIClient

/-! ## Conversation memory: token accounting and system-message preservation -/

namespace ConversationMemory

theorem msgSum_nil : msgSum [] = 0 := rfl

theorem msgSum_cons (m : ConversationMessage) (l : List ConversationMessage) :
    msgSum (m :: l) = msgTokens m + msgSum l := by
  simp [msgSum]

theorem msgSum_append (l1 l2 : List ConversationMessage) :
    msgSum (l1 ++ l2) = msgSum l1 + msgSum l2 := by
  simp [msgSum]

theorem msgSum_filter_split (p : ConversationMessage → Bool)
    (l : List ConversationMessage) :
    msgSum (l.filter p) + msgSum (l.filter (fun m => !(p m))) = msgSum l := by
  induction l with
  | nil => simp [msgSum]
  | cons m rest ih =>
    cases hp : p m with
    | true =>
      simp [List.filter_cons, hp, msgSum_cons]
      omega
    | false =>
      simp [List.filter_cons, hp, msgSum_cons]
      omega

theorem msgSum_take_drop (j : Nat) (l : List ConversationMessage) :
    msgSum (l.take j) + msgSum (l.drop j) = msgSum l := by
  conv_rhs => rw [← List.take_append_drop j l]
  rw [msgSum_append]

theorem trimLoop_total (l : List ConversationMessage) :
    ∀ total : Int,
      (trimLoop l total).2 = total - msgSum l + msgSum (trimLoop l total).1 := by
  induction l with
  | nil => intro total; simp [trimLoop, msgSum]
  | cons m rest ih =>
    intro total
    by_cases h : tokenTrimThreshold < total ∧ 2 < (m :: rest).length
    · rw [trimLoop, if_pos h, ih]
      rw [msgSum_cons]
      omega
    · rw [trimLoop, if_neg h]
      dsimp only
      omega

theorem trimLoop_mem (l : List ConversationMessage) :
    ∀ (total : Int) (m : ConversationMessage),
      m ∈ (trimLoop l total).1 → m ∈ l := by
  induction l with
  | nil => intro total m hm; simp [trimLoop] at hm
  | cons a rest ih =>
    intro total m hm
    by_cases h : tokenTrimThreshold < total ∧ 2 < (a :: rest).length
    · rw [trimLoop, if_pos h] at hm
      exact List.mem_cons_of_mem a (ih _ m hm)
    · rw [trimLoop, if_neg h] at hm
      exact hm

theorem trimConversation_tokenInvariant (c : Conversation)
    (h : tokenInvariant c) : tokenInvariant (trimConversation c) := by
  unfold tokenInvariant at *
  unfold trimConversation
  simp only [msgSum_append]
  rw [trimLoop_total]
  have hsplit := msgSum_filter_split isSystem c.messages
  omega

theorem trimMessages_tokenInvariant (c : Conversation)
    (h : tokenInvariant c) : tokenInvariant (trimMessages c) := by
  unfold tokenInvariant at *
  unfold trimMessages
  simp only [msgSum_append, jsSlice1_eq_drop, jsSlice_zero_eq_take]
  have hsplit := msgSum_filter_split isSystem c.messages
  have htd := msgSum_take_drop
    (jsClampIndex (c.messages.filter (fun m => !(isSystem m))).length
      (-((MAX_MESSAGES_PER_CONVERSATION : Int) -
         (c.messages.filter isSystem).length)))
    (c.messages.filter (fun m => !(isSystem m)))
  omega

theorem addMessageConv_tokenInvariant (c : Conversation) (role : ChatRole)
    (content : String) (tokens : Option Nat) (now : Nat)
    (h : tokenInvariant c) :
    tokenInvariant (addMessageConv c role content tokens now) := by
  unfold addMessageConv
  dsimp only
  set est := jsOrNat tokens (estimateTokens content) with hest
  have h1 : tokenInvariant
      (if MAX_TOKENS_PER_CONVERSATION < c.totalTokens + (est : Int) then
        trimConversation c else c) := by
    split
    · exact trimConversation_tokenInvariant c h
    · exact h
  set c1 := (if MAX_TOKENS_PER_CONVERSATION < c.totalTokens + (est : Int) then
      trimConversation c else c) with hc1
  have h2 : tokenInvariant
      { c1 with
          messages := c1.messages ++ [⟨ChatRole.toRole role, content, now, some est⟩]
          lastActive := now
          totalTokens := c1.totalTokens + (est : Int) } := by
    unfold tokenInvariant at h1 ⊢
    simp only [msgSum_append, msgSum_cons, msgSum_nil]
    simp only [msgTokens, Option.getD_some]
    omega
  split
  · exact trimMessages_tokenInvariant _ h2
  · exact h2

theorem runRequests_tokenInvariant (reqs : List AddRequest) :
    ∀ c : Conversation, tokenInvariant c → tokenInvariant (runRequests c reqs) := by
  induction reqs with
  | nil => intro c h; exact h
  | cons r rest ih =>
    intro c h
    exact ih _ (addMessageConv_tokenInvariant c r.role r.content r.tokens r.now h)

theorem createConversation_tokenInvariant (systemPrompt : Option String)
    (now : Nat) (id : String) :
    tokenInvariant (createConversation systemPrompt now id) := by
  cases systemPrompt with
  | none => simp [tokenInvariant, createConversation, msgSum]
  | some sp => simp [tokenInvariant, createConversation, msgSum, msgTokens]

/-- C1: for every conversation created by the store and after any sequence
of `addMessage` calls — including calls that trigger the token-ceiling
trim (`trimConversation`) and the message-count trim (`trimMessages`) —
the conversation's `totalTokens` field equals the sum of the token
estimates of its currently stored messages. -/
theorem claim_C1 (systemPrompt : Option String) (now : Nat) (id : String)
    (reqs : List AddRequest) :
    tokenInvariant (runRequests (createConversation systemPrompt now id) reqs) :=
  runRequests_tokenInvariant reqs _
    (createConversation_tokenInvariant systemPrompt now id)

theorem filter_isSystem_filter (l : List ConversationMessage) :
    (l.filter isSystem).filter isSystem = l.filter isSystem :=
  List.filter_eq_self.mpr (fun _ hm => (List.mem_filter.mp hm).2)

theorem filter_isSystem_of_non (l : List ConversationMessage)
    (h : ∀ m ∈ l, isSystem m = false) : l.filter isSystem = [] :=
  List.filter_eq_nil_iff.mpr (fun m hm => by simp [h m hm])

theorem trimConversation_system_messages (c : Conversation) :
    (trimConversation c).messages.filter isSystem =
      c.messages.filter isSystem := by
  unfold trimConversation
  simp only [List.filter_append, filter_isSystem_filter]
  have hnil : (trimLoop (c.messages.filter (fun m => !(isSystem m)))
      c.totalTokens).1.filter isSystem = [] := by
    apply filter_isSystem_of_non
    intro m hm
    have hmem := trimLoop_mem _ _ _ hm
    have := (List.mem_filter.mp hmem).2
    simpa using this
  rw [hnil, List.append_nil]

theorem trimMessages_system_messages (c : Conversation) :
    (trimMessages c).messages.filter isSystem =
      c.messages.filter isSystem := by
  unfold trimMessages
  simp only [List.filter_append, filter_isSystem_filter, jsSlice1_eq_drop]
  have hnil : ((c.messages.filter (fun m => !(isSystem m))).drop
      (jsClampIndex (c.messages.filter (fun m => !(isSystem m))).length
        (-((MAX_MESSAGES_PER_CONVERSATION : Int) -
           (c.messages.filter isSystem).length)))).filter isSystem = [] := by
    apply filter_isSystem_of_non
    intro m hm
    have hmem : m ∈ c.messages.filter (fun m => !(isSystem m)) :=
      List.mem_of_mem_drop hm
    have := (List.mem_filter.mp hmem).2
    simpa using this
  rw [hnil, List.append_nil]

/-- C6: neither trimming operation (the token-ceiling trim
`trimConversation` nor the message-count trim `trimMessages`) ever
removes a message whose role is `system`: the sublist of system-role
messages is left exactly as it was. -/
theorem claim_C6 (c : Conversation) :
    (trimConversation c).messages.filter isSystem =
      c.messages.filter isSystem ∧
    (trimMessages c).messages.filter isSystem =
      c.messages.filter isSystem :=
  ⟨trimConversation_system_messages c, trimMessages_system_messages c⟩

end ConversationMemory

/-! ## Conversation memory: store accesses and the soft token ceiling -/

namespace ConversationMemory

theorem storeLookup_cons (p : String × Conversation) (s : Store) (id : String) :
    storeLookup (p :: s) id =
      if p.1 == id then some p.2 else storeLookup s id := by
  by_cases hp : p.1 = id
  · have hpb : (p.1 == id) = true := beq_iff_eq.mpr hp
    unfold storeLookup
    rw [if_pos hpb]
    simp [List.find?_cons, hpb]
  · have hpb : (p.1 == id) = false := beq_eq_false_iff_ne.mpr hp
    unfold storeLookup
    rw [if_neg (by simp [hpb])]
    simp [List.find?_cons, hpb]

theorem storeUpdate_cons (p : String × Conversation) (s : Store) (id : String)
    (c' : Conversation) :
    storeUpdate (p :: s) id c' =
      (if p.1 == id then (p.1, c') else p) :: storeUpdate s id c' := by
  simp [storeUpdate]

theorem storeLookup_update_self (s : Store) (id : String) (c' : Conversation)
    (h : (storeLookup s id).isSome) :
    storeLookup (storeUpdate s id c') id = some c' := by
  induction s with
  | nil => simp [storeLookup] at h
  | cons p rest ih =>
    by_cases hp : p.1 = id
    · have hpb : (p.1 == id) = true := beq_iff_eq.mpr hp
      rw [storeUpdate_cons, if_pos hpb, storeLookup_cons]
      simp [hpb]
    · have hpb : (p.1 == id) = false := beq_eq_false_iff_ne.mpr hp
      rw [storeUpdate_cons, if_neg (by simp [hpb]), storeLookup_cons,
        if_neg (by simp [hpb])]
      apply ih
      rw [storeLookup_cons, if_neg (by simp [hpb])] at h
      exact h

theorem storeLookup_update_ne (s : Store) (id id' : String) (c' : Conversation)
    (h : id' ≠ id) :
    storeLookup (storeUpdate s id c') id' = storeLookup s id' := by
  induction s with
  | nil => rfl
  | cons p rest ih =>
    by_cases hp : p.1 = id
    · have hpb : (p.1 == id) = true := beq_iff_eq.mpr hp
      have hpb' : (p.1 == id') = false := by
        apply beq_eq_false_iff_ne.mpr
        rw [hp]
        exact fun hh => h hh.symm
      rw [storeUpdate_cons, if_pos hpb, storeLookup_cons, storeLookup_cons]
      simp [hpb', ih]
    · have hpb : (p.1 == id) = false := beq_eq_false_iff_ne.mpr hp
      rw [storeUpdate_cons, if_neg (by simp [hpb]), storeLookup_cons,
        storeLookup_cons]
      by_cases hp' : p.1 = id'
      · have hpb' : (p.1 == id') = true := beq_iff_eq.mpr hp'
        simp [hpb']
      · have hpb' : (p.1 == id') = false := beq_eq_false_iff_ne.mpr hp'
        simp [hpb', ih]

theorem isSystem_toRole (role : ChatRole) (content : String) (now : Nat)
    (t : Option Nat) :
    isSystem ⟨role.toRole, content, now, t⟩ = false := by
  cases role <;> rfl

theorem jsClampIndex_neg_le (len : Nat) (k : Int) (hk : 1 ≤ k) :
    jsClampIndex (len + 1) (-k) ≤ len := by
  unfold jsClampIndex
  rw [if_pos (by omega)]
  omega

theorem getLast?_append_drop (sys front : List ConversationMessage)
    (msg : ConversationMessage) (j : Nat) (hj : j ≤ front.length) :
    (sys ++ (front ++ [msg]).drop j).getLast? = some msg := by
  rw [List.drop_append_of_le_length hj, ← List.append_assoc]
  exact List.getLast?_concat _

theorem trimMessages_getLast (c : Conversation) (l : List ConversationMessage)
    (msg : ConversationMessage) (hm : c.messages = l ++ [msg])
    (hns : isSystem msg = false)
    (hsys : (c.messages.filter isSystem).length ≤ 1) :
    (trimMessages c).messages.getLast? = some msg := by
  unfold trimMessages
  dsimp only
  rw [hm] at hsys ⊢
  have hfils : (l ++ [msg]).filter isSystem = l.filter isSystem := by
    simp [List.filter_append, hns]
  have hfil : (l ++ [msg]).filter (fun m => !(isSystem m)) =
      l.filter (fun m => !(isSystem m)) ++ [msg] := by
    simp [List.filter_append, hns]
  rw [hfils] at hsys
  rw [hfils, hfil, jsSlice1_eq_drop]
  have hlen : (l.filter (fun m => !(isSystem m)) ++ [msg]).length =
      (l.filter (fun m => !(isSystem m))).length + 1 := by simp
  rw [hlen]
  apply getLast?_append_drop
  apply jsClampIndex_neg_le
  unfold MAX_MESSAGES_PER_CONVERSATION
  omega

theorem addMessageConv_getLast (c : Conversation) (role : ChatRole)
    (content : String) (tokens : Option Nat) (now : Nat)
    (hsys : (c.messages.filter isSystem).length ≤ 1) :
    (addMessageConv c role content tokens now).messages.getLast? =
      some ⟨role.toRole, content, now, some (jsOrNat tokens (estimateTokens content))⟩ := by
  unfold addMessageConv
  dsimp only
  set est := jsOrNat tokens (estimateTokens content) with hest
  set c1 := (if MAX_TOKENS_PER_CONVERSATION < c.totalTokens + (est : Int) then
      trimConversation c else c) with hc1
  have hsys1 : (c1.messages.filter isSystem).length ≤ 1 := by
    rw [hc1]
    split
    · rw [trimConversation_system_messages]; exact hsys
    · exact hsys
  split
  · apply trimMessages_getLast _ c1.messages _ rfl (isSystem_toRole role content now _)
    have : (c1.messages ++ [(⟨role.toRole, content, now, some est⟩ :
        ConversationMessage)]).filter isSystem = c1.messages.filter isSystem := by
      simp [List.filter_append, isSystem_toRole]
    rw [this]
    exact hsys1
  · exact List.getLast?_concat _

/-- C9: the 8000-token ceiling is not a hard bound.  (i) `addMessage`
returns `true` and appends the message to any conversation present in
the store (one whose system messages number at most one, as every
conversation the class builds does), whatever the message's token
estimate; (ii) a sequence of three 4000-token `addMessage` calls leaves
`totalTokens` at 12000 > 8000 right after a successful `addMessage`,
because token-trimming runs before the append, targets 80% of the
ceiling and stops when only 2 non-system messages remain; a fourth call
trims back only to 8000 and ends at 8100, still above the ceiling, with
2 old non-system messages kept. -/
theorem claim_C9 :
    (∀ (s : Store) (id : String) (role : ChatRole) (content : String)
        (tokens : Option Nat) (now : Nat) (c : Conversation),
        storeLookup s id = some c →
        (c.messages.filter isSystem).length ≤ 1 →
        (addMessage s id role content tokens now).1 = true ∧
        ∃ c', storeLookup (addMessage s id role content tokens now).2 id = some c' ∧
          c'.messages.getLast? =
            some ⟨role.toRole, content, now,
                  some (jsOrNat tokens (estimateTokens content))⟩) ∧
    (MAX_TOKENS_PER_CONVERSATION <
        (runRequests (createConversation none 0 "c")
          [⟨ChatRole.user, "m1", some 4000, 1⟩, ⟨ChatRole.user, "m2", some 4000, 2⟩,
           ⟨ChatRole.user, "m3", some 4000, 3⟩]).totalTokens ∧
      (runRequests (createConversation none 0 "c")
          [⟨ChatRole.user, "m1", some 4000, 1⟩, ⟨ChatRole.user, "m2", some 4000, 2⟩,
           ⟨ChatRole.user, "m3", some 4000, 3⟩]).totalTokens = 12000) ∧
    ((runRequests (createConversation none 0 "c")
          [⟨ChatRole.user, "m1", some 4000, 1⟩, ⟨ChatRole.user, "m2", some 4000, 2⟩,
           ⟨ChatRole.user, "m3", some 4000, 3⟩,
           ⟨ChatRole.user, "m4", some 100, 4⟩]).totalTokens = 8100 ∧
      (runRequests (createConversation none 0 "c")
          [⟨ChatRole.user, "m1", some 4000, 1⟩, ⟨ChatRole.user, "m2", some 4000, 2⟩,
           ⟨ChatRole.user, "m3", some 4000, 3⟩,
           ⟨ChatRole.user, "m4", some 100, 4⟩]).messages.length = 3) := by
  refine ⟨?_, by decide, by decide⟩
  intro s id role content tokens now c h hsys
  unfold addMessage
  rw [h]
  dsimp only
  refine ⟨rfl, addMessageConv c role content tokens now, ?_, ?_⟩
  · exact storeLookup_update_self s id _ (by rw [h]; rfl)
  · exact addMessageConv_getLast c role content tokens now hsys

theorem claim_C9_witness :
    storeLookup [("c", createConversation none 0 "c")] "c" =
        some (createConversation none 0 "c") ∧
    (((createConversation none 0 "c").messages.filter isSystem).length ≤ 1) ∧
    ((addMessage [("c", createConversation none 0 "c")] "c" ChatRole.user
        "hello" none 5).1 = true ∧
      ∃ c', storeLookup (addMessage [("c", createConversation none 0 "c")] "c"
          ChatRole.user "hello" none 5).2 "c" = some c' ∧
        c'.messages.getLast? =
          some ⟨ChatRole.toRole ChatRole.user, "hello", 5,
                some (jsOrNat none (estimateTokens "hello"))⟩) :=
  ⟨rfl, by decide,
    claim_C9.1 [("c", createConversation none 0 "c")] "c" ChatRole.user
      "hello" none 5 (createConversation none 0 "c") rfl (by decide)⟩

/-- C10: reading a conversation is not effect-free: a successful
`getConversation` (and `getFormattedMessages`, which goes through it)
returns the stored messages but also sets the conversation's
`lastActive` to the current time — resetting the idle-expiry clock —
while leaving its `id`, `messages`, `totalTokens` and every other
conversation in the store unchanged. -/
theorem claim_C10 (s : Store) (id : String) (now : Nat) (c : Conversation)
    (h : storeLookup s id = some c) :
    (getConversation s id now).1 = some c.messages ∧
    storeLookup (getConversation s id now).2 id = some { c with lastActive := now } ∧
    (∀ id', id' ≠ id →
      storeLookup (getConversation s id now).2 id' = storeLookup s id') ∧
    (getFormattedMessages s id now).1 =
      some (c.messages.map (fun m => ⟨m.role, m.content⟩)) ∧
    (getFormattedMessages s id now).2 = (getConversation s id now).2 := by
  have hg : getConversation s id now =
      (some c.messages, storeUpdate s id { c with lastActive := now }) := by
    unfold getConversation
    rw [h]
  refine ⟨by rw [hg], ?_, ?_, ?_, ?_⟩
  · rw [hg]
    exact storeLookup_update_self s id _ (by rw [h]; rfl)
  · intro id' hne
    rw [hg]
    exact storeLookup_update_ne s id id' _ hne
  · unfold getFormattedMessages
    rw [hg]
  · unfold getFormattedMessages
    rw [hg]

theorem claim_C10_witness :
    storeLookup [("a", createConversation (some "sys") 0 "a")] "a" =
        some (createConversation (some "sys") 0 "a") ∧
    ((getConversation [("a", createConversation (some "sys") 0 "a")] "a" 99).1 =
        some (createConversation (some "sys") 0 "a").messages ∧
      storeLookup (getConversation [("a", createConversation (some "sys") 0 "a")]
          "a" 99).2 "a" =
        some { createConversation (some "sys") 0 "a" with lastActive := 99 } ∧
      (∀ id', id' ≠ "a" →
        storeLookup (getConversation [("a", createConversation (some "sys") 0 "a")]
            "a" 99).2 id' =
          storeLookup [("a", createConversation (some "sys") 0 "a")] id') ∧
      (getFormattedMessages [("a", createConversation (some "sys") 0 "a")] "a" 99).1 =
        some ((createConversation (some "sys") 0 "a").messages.map
          (fun m => ⟨m.role, m.content⟩)) ∧
      (getFormattedMessages [("a", createConversation (some "sys") 0 "a")] "a" 99).2 =
        (getConversation [("a", createConversation (some "sys") 0 "a")] "a" 99).2) :=
  ⟨rfl, claim_C10 [("a", createConversation (some "sys") 0 "a")] "a" 99
    (createConversation (some "sys") 0 "a") rfl⟩

end ConversationMemory

/-! ## Response cache: eviction at capacity and fingerprint normalization -/

namespace ResponseCache

theorem findOldest_spec {α : Type} (l : Cache α) :
    ∀ (o : Option String) (t : Nat),
      (l.foldl (fun acc p =>
          if p.2.timestamp < acc.2 then (some p.1, p.2.timestamp) else acc) (o, t)).2 ≤ t ∧
      (∀ p ∈ l,
        (l.foldl (fun acc p =>
          if p.2.timestamp < acc.2 then (some p.1, p.2.timestamp) else acc) (o, t)).2 ≤
          p.2.timestamp) ∧
      ((l.foldl (fun acc p =>
          if p.2.timestamp < acc.2 then (some p.1, p.2.timestamp) else acc) (o, t)) = (o, t) ∨
        ∃ p ∈ l,
          (l.foldl (fun acc p =>
            if p.2.timestamp < acc.2 then (some p.1, p.2.timestamp) else acc) (o, t)).1 =
            some p.1 ∧
          (l.foldl (fun acc p =>
            if p.2.timestamp < acc.2 then (some p.1, p.2.timestamp) else acc) (o, t)).2 =
            p.2.timestamp) := by
  induction l with
  | nil => intro o t; exact ⟨le_refl t, by simp, Or.inl rfl⟩
  | cons p l ih =>
    intro o t
    rw [List.foldl_cons]
    dsimp only
    by_cases hp : p.2.timestamp < t
    · rw [if_pos hp]
      obtain ⟨h1, h2, h3⟩ := ih (some p.1) p.2.timestamp
      refine ⟨le_trans h1 (Nat.le_of_lt hp), ?_, ?_⟩
      · intro q hq
        rcases List.mem_cons.mp hq with hq | hq
        · rw [hq]; exact h1
        · exact h2 q hq
      · rcases h3 with h3 | ⟨q, hq, hq1, hq2⟩
        · exact Or.inr ⟨p, List.mem_cons_self p l, by rw [h3], by rw [h3]⟩
        · exact Or.inr ⟨q, List.mem_cons_of_mem p hq, hq1, hq2⟩
    · rw [if_neg hp]
      obtain ⟨h1, h2, h3⟩ := ih o t
      refine ⟨h1, ?_, ?_⟩
      · intro q hq
        rcases List.mem_cons.mp hq with hq | hq
        · rw [hq]; omega
        · exact h2 q hq
      · rcases h3 with h3 | ⟨q, hq, hq1, hq2⟩
        · exact Or.inl h3
        · exact Or.inr ⟨q, List.mem_cons_of_mem p hq, hq1, hq2⟩

theorem findOldest_of_older {α : Type} (c : Cache α) (now : Nat)
    (hold : ∃ p ∈ c, p.2.timestamp < now) :
    ∃ q ∈ c, (findOldest c now).1 = some q.1 ∧
      ∀ r ∈ c, q.2.timestamp ≤ r.2.timestamp := by
  obtain ⟨p, hp, hplt⟩ := hold
  obtain ⟨h1, h2, h3⟩ := findOldest_spec c (none) now
  have hfo : findOldest c now = c.foldl
      (fun acc p => if p.2.timestamp < acc.2 then (some p.1, p.2.timestamp) else acc)
      (none, now) := rfl
  rw [hfo]
  have hlt : (c.foldl
      (fun acc p => if p.2.timestamp < acc.2 then (some p.1, p.2.timestamp) else acc)
      (none, now)).2 < now := lt_of_le_of_lt (h2 p hp) hplt
  rcases h3 with h3 | ⟨q, hq, hq1, hq2⟩
  · rw [h3] at hlt
    exact absurd hlt (by simp)
  · refine ⟨q, hq, hq1, ?_⟩
    intro r hr
    rw [← hq2]
    exact h2 r hr

theorem length_filter_lt_of_mem {α : Type} (l : List α) (a : α)
    (f : α → Bool) (ha : a ∈ l) (hfa : f a = false) :
    (l.filter f).length < l.length := by
  induction l with
  | nil => simp at ha
  | cons b l ih =>
    rcases List.mem_cons.mp ha with hab | hal
    · have hfb : f b = false := hab ▸ hfa
      simp [List.filter_cons, hfb]
      have := List.length_filter_le f l
      omega
    · by_cases hb : f b
      · simp [List.filter_cons, hb]
        have := ih hal
        omega
      · have hb' : f b = false := by simpa using hb
        simp [List.filter_cons, hb']
        have := ih hal
        have h2 := List.length_filter_le f l
        omega

theorem length_mapDelete_lt {α : Type} (c : Cache α) (k : String)
    (e : CacheEntry α) (h : (k, e) ∈ c) :
    (mapDelete c k).length < c.length := by
  apply length_filter_lt_of_mem c (k, e) _ h
  simp

theorem length_mapSet_le {α : Type} (c : Cache α) (k : String)
    (e : CacheEntry α) : (mapSet c k e).length ≤ c.length + 1 := by
  unfold mapSet
  split
  · rw [List.length_map]; omega
  · rw [List.length_append]; simp

/-- C2 (amended): at capacity, `set` evicts an entry carrying the minimal
creation timestamp and the entry count stays within `MAX_SIZE` —
provided at least one stored entry's creation timestamp is strictly
earlier than the current time.  (When every entry's timestamp is ≥ the
current time, `evictOldest`'s strict `<` scan — seeded with
`Date.now()` — selects nothing; see the counterexample.) -/
theorem claim_C2 {α : Type} (c : Cache α) (now : Nat) (k : String) (d : α)
    (ttl : Nat) (customTTL : Option Nat)
    (hfull : c.length = MAX_SIZE)
    (hold : ∃ p ∈ c, p.2.timestamp < now) :
    (∃ q ∈ c, (findOldest c now).1 = some q.1 ∧
        (∀ r ∈ c, q.2.timestamp ≤ r.2.timestamp) ∧
        ResponseCache.set c now k d ttl customTTL =
          mapSet (mapDelete c q.1) k ⟨d, now, now + jsOrNat customTTL ttl, 0⟩) ∧
    (ResponseCache.set c now k d ttl customTTL).length ≤ MAX_SIZE := by
  obtain ⟨q, hq, hq1, hqmin⟩ := findOldest_of_older c now hold
  have hset : ResponseCache.set c now k d ttl customTTL =
      mapSet (mapDelete c q.1) k ⟨d, now, now + jsOrNat customTTL ttl, 0⟩ := by
    unfold ResponseCache.set
    dsimp only
    rw [if_pos (show MAX_SIZE ≤ c.length by omega)]
    unfold evictOldest
    rw [hq1]
  refine ⟨⟨q, hq, hq1, hqmin, hset⟩, ?_⟩
  rw [hset]
  have hdel : (mapDelete c q.1).length < c.length := by
    apply length_mapDelete_lt c q.1 q.2
    simpa using hq
  have hins := length_mapSet_le (mapDelete c q.1) k
    (⟨d, now, now + jsOrNat customTTL ttl, 0⟩ : CacheEntry α)
  omega

theorem length_fullCacheAt (t : Nat) : (fullCacheAt t).length = MAX_SIZE := by
  simp [fullCacheAt]

theorem timestamp_fullCacheAt (t : Nat) :
    ∀ p ∈ fullCacheAt t, p.2.timestamp = t := by
  intro p hp
  obtain ⟨i, _, rfl⟩ := List.mem_map.mp hp
  rfl

theorem findOldest_of_allge {α : Type} (c : Cache α) (now : Nat)
    (h : ∀ p ∈ c, now ≤ p.2.timestamp) : findOldest c now = (none, now) := by
  unfold findOldest
  induction c with
  | nil => rfl
  | cons p l ih =>
    rw [List.foldl_cons]
    dsimp only
    rw [if_neg (by have hp := h p (List.mem_cons_self p l); omega)]
    exact ih (fun q hq => h q (List.mem_cons_of_mem p hq))

theorem evictOldest_of_allge {α : Type} (c : Cache α) (now : Nat)
    (h : ∀ p ∈ c, now ≤ p.2.timestamp) : evictOldest c now = c := by
  unfold evictOldest
  rw [findOldest_of_allge c now h]

theorem key_fullCacheAt_ne_fresh (t : Nat) :
    ∀ p ∈ fullCacheAt t, (p.1 == "fresh") = false := by
  intro p hp
  obtain ⟨i, _, rfl⟩ := List.mem_map.mp hp
  dsimp only
  apply beq_eq_false_iff_ne.mpr
  intro hcontra
  have hdata : List.replicate i 'k' = "fresh".data := congrArg String.data hcontra
  have hlen : i = 5 := by
    have := congrArg List.length hdata
    simpa using this
  subst hlen
  exact absurd hdata (by decide)

theorem mapSet_of_no_key {α : Type} (c : Cache α) (k : String) (e : CacheEntry α)
    (h : ∀ p ∈ c, (p.1 == k) = false) : mapSet c k e = c ++ [(k, e)] := by
  have hany : c.any (fun p => p.1 == k) = false := by
    rw [List.any_eq_false]
    intro p hp
    simp [h p hp]
  unfold mapSet
  rw [if_neg (by rw [hany]; simp)]

/-- C2 counterexample: a cache at the fixed capacity (1000 entries) whose
entries were all created at the current millisecond.  `evictOldest`'s
scan starts its running minimum at `Date.now()` and uses strict `<`, so
it selects no entry, nothing is evicted, and inserting a fresh key
leaves the cache with 1001 entries — the claimed capacity bound fails. -/
theorem claim_C2_counterexample :
    MAX_SIZE < (ResponseCache.set (fullCacheAt 5) 5 "fresh" 0 DEFAULT_TTL none).length ∧
    (ResponseCache.set (fullCacheAt 5) 5 "fresh" 0 DEFAULT_TTL none).length =
      MAX_SIZE + 1 := by
  have hset : ResponseCache.set (fullCacheAt 5) 5 "fresh" 0 DEFAULT_TTL none =
      fullCacheAt 5 ++ [("fresh", ⟨0, 5, 5 + jsOrNat none DEFAULT_TTL, 0⟩)] := by
    unfold ResponseCache.set
    dsimp only
    rw [if_pos (by simp [length_fullCacheAt])]
    rw [evictOldest_of_allge _ _ (fun p hp => (timestamp_fullCacheAt 5 p hp).ge)]
    exact mapSet_of_no_key _ _ _ (key_fullCacheAt_ne_fresh 5)
  rw [hset, List.length_append, length_fullCacheAt, List.length_singleton]
  exact ⟨Nat.lt_succ_self _, rfl⟩

theorem oldEntry_mem_fullCacheAt :
    (String.mk (List.replicate 0 'k'),
      (⟨0, 0, 0 + DEFAULT_TTL, 0⟩ : CacheEntry Nat)) ∈ fullCacheAt 0 :=
  List.mem_map.mpr ⟨0, List.mem_range.mpr (by norm_num [MAX_SIZE]), rfl⟩

theorem claim_C2_witness :
    (fullCacheAt 0).length = MAX_SIZE ∧
    (∃ p ∈ fullCacheAt 0, p.2.timestamp < 5) ∧
    ((∃ q ∈ fullCacheAt 0, (findOldest (fullCacheAt 0) 5).1 = some q.1 ∧
        (∀ r ∈ fullCacheAt 0, q.2.timestamp ≤ r.2.timestamp) ∧
        ResponseCache.set (fullCacheAt 0) 5 "fresh" 7 DEFAULT_TTL none =
          mapSet (mapDelete (fullCacheAt 0) q.1) "fresh"
            ⟨7, 5, 5 + jsOrNat none DEFAULT_TTL, 0⟩) ∧
      (ResponseCache.set (fullCacheAt 0) 5 "fresh" 7 DEFAULT_TTL none).length ≤
        MAX_SIZE) :=
  ⟨length_fullCacheAt 0,
    ⟨_, oldEntry_mem_fullCacheAt, by norm_num⟩,
    claim_C2 (fullCacheAt 0) 5 "fresh" 7 DEFAULT_TTL none (length_fullCacheAt 0)
      ⟨_, oldEntry_mem_fullCacheAt, by norm_num⟩⟩

theorem map_normMessage_eq_of_forall₂ (ms1 ms2 : List KeyMessage)
    (hf : List.Forall₂
      (fun a b => a.role = b.role ∧ jsTrim a.content = jsTrim b.content) ms1 ms2) :
    ms1.map (fun m => (⟨m.role, jsTrim m.content⟩ : KeyMessage)) =
      ms2.map (fun m => (⟨m.role, jsTrim m.content⟩ : KeyMessage)) := by
  induction hf with
  | nil => rfl
  | cons ha _ ih => simp only [List.map_cons, ha.1, ha.2, ih]

/-- C5: `createCacheKey` is a pure function of the normalized request: two
requests on the same endpoint whose message lists agree on roles and on
whitespace-trimmed contents, whose temperatures agree after rounding to
2 decimal places, and which agree on `systemPrompt` produce the same
fingerprint; and every property of `data` other than `messages`,
`temperature` and `systemPrompt` is excluded from the fingerprint
input. -/
theorem claim_C5 :
    (∀ (endpoint : String) (d1 d2 : KeyData) (ms1 ms2 : List KeyMessage)
        (t1 t2 : ℚ),
      d1.messages = some ms1 → d2.messages = some ms2 →
      List.Forall₂ (fun a b => a.role = b.role ∧ jsTrim a.content = jsTrim b.content)
        ms1 ms2 →
      d1.temperature = some t1 → d2.temperature = some t2 →
      roundTemp t1 = roundTemp t2 →
      d1.systemPrompt = d2.systemPrompt →
      createCacheKey endpoint d1 = createCacheKey endpoint d2) ∧
    (∀ (endpoint : String) (m : Option (List KeyMessage)) (t : Option ℚ)
        (sp : Option String) (r1 r2 : List (String × String)),
      createCacheKey endpoint ⟨m, t, sp, r1⟩ = createCacheKey endpoint ⟨m, t, sp, r2⟩) := by
  constructor
  · intro endpoint d1 d2 ms1 ms2 t1 t2 hm1 hm2 hf ht1 ht2 htr hsp
    unfold createCacheKey
    rw [hm1, hm2, ht1, ht2, hsp]
    simp [map_normMessage_eq_of_forall₂ ms1 ms2 hf, htr]
  · intro endpoint m t sp r1 r2
    rfl

theorem claim_C5_witness :
    (⟨some [⟨"user", "Hello "⟩], some (4 / 5), none, [("x", "1")]⟩ :
        KeyData).messages = some [⟨"user", "Hello "⟩] ∧
    (⟨some [⟨"user", "Hello"⟩], some (4 / 5), none, []⟩ :
        KeyData).messages = some [⟨"user", "Hello"⟩] ∧
    jsTrim "Hello " = jsTrim "Hello" ∧
    roundTemp (4 / 5) = roundTemp (4 / 5) ∧
    createCacheKey "analyze-slides"
        ⟨some [⟨"user", "Hello "⟩], some (4 / 5), none, [("x", "1")]⟩ =
      createCacheKey "analyze-slides"
        ⟨some [⟨"user", "Hello"⟩], some (4 / 5), none, []⟩ :=
  ⟨rfl, rfl, by decide, rfl,
    claim_C5.1 "analyze-slides"
      ⟨some [⟨"user", "Hello "⟩], some (4 / 5), none, [("x", "1")]⟩
      ⟨some [⟨"user", "Hello"⟩], some (4 / 5), none, []⟩
      [⟨"user", "Hello "⟩] [⟨"user", "Hello"⟩] (4 / 5) (4 / 5)
      rfl rfl
      (List.Forall₂.cons ⟨rfl, by decide⟩ List.Forall₂.nil)
      rfl rfl rfl rfl⟩

end ResponseCache

/-! ## Token tracker: daily limits -/

namespace TokenTracker

/-- C4: `checkDailyLimits` reports `costExceeded = true` exactly when the
sum of today's recorded costs is ≥ the supplied cost limit (equality
counts as exceeded), and `tokensExceeded = true` exactly when today's
summed tokens are ≥ the token limit. -/
theorem claim_C4 (usage : List TokenUsage) (now : Nat)
    (maxDailyCost : ℚ) (maxDailyTokens : Nat) :
    ((checkDailyLimits usage now maxDailyCost maxDailyTokens).costExceeded = true ↔
      maxDailyCost ≤
        ((usage.filter (fun u => dayOf u.timestamp == dayOf now)).map
          (fun u => u.cost)).sum) ∧
    ((checkDailyLimits usage now maxDailyCost maxDailyTokens).tokensExceeded = true ↔
      maxDailyTokens ≤
        ((usage.filter (fun u => dayOf u.timestamp == dayOf now)).map
          (fun u => u.tokens)).sum) := by
  unfold checkDailyLimits getTodaysUsage
  constructor <;> simp

end TokenTracker

/-! ## OpenAI client: cost table -/

namespace OpenAIClient

/-- C8: the computed cost is
`(inputTokens · pricePerMInput + outputTokens · pricePerMOutput) / 1e6`
with the price pair looked up per model name, falling back to the
`gpt-4o-mini` entry `(0.15, 0.6)` for unknown models, in which case
(and only then) the warning is emitted. -/
theorem claim_C8 (model : String) (inputTokens outputTokens : Nat) :
    (calculateCost model inputTokens outputTokens).1 =
      ((inputTokens : ℚ) * ((MODEL_COSTS.lookup model).getD (0.15, 0.6)).1 +
        (outputTokens : ℚ) * ((MODEL_COSTS.lookup model).getD (0.15, 0.6)).2) /
        1000000 ∧
    ((calculateCost model inputTokens outputTokens).2 = true ↔
      MODEL_COSTS.lookup model = none) ∧
    MODEL_COSTS.lookup "gpt-4o-mini" = some (0.15, 0.6) := by
  refine ⟨?_, ?_, rfl⟩ <;>
    · unfold calculateCost
      cases h : MODEL_COSTS.lookup model with
      | none => simp [h]
      | some p => simp [h]

end OpenAIClient

/-! ## OpenAI client: pre-flight input check and retry policy -/

namespace OpenAIClient

theorem backoffDelay_pos (baseDelay maxDelay attempt : Nat)
    (hb : 0 < baseDelay) (hm : 0 < maxDelay) :
    0 < backoffDelay baseDelay maxDelay attempt := by
  unfold backoffDelay
  have h2 : 0 < 2 ^ attempt := Nat.pos_pow_of_pos attempt (by omega)
  have : 0 < baseDelay * 2 ^ attempt := Nat.mul_pos hb h2
  omega

theorem rateLimit_retriable (e : JsError) (h : isRateLimitError e = true) :
    isRetriableError e = true := by
  unfold isRateLimitError at h
  unfold isRetriableError
  cases hs : e.status with
  | none => rw [hs] at h; exact absurd h (by simp)
  | some s =>
    rw [hs] at h
    have hs429 : s = 429 := by simpa using h
    subst hs429
    decide

theorem flush_append (sleeps : List Nat) (rld : Nat) :
    (if 0 < rld then sleeps ++ [rld] else sleeps) =
      sleeps ++ (if 0 < rld then [rld] else []) := by
  split <;> simp

theorem append_backoff (X : List Nat) (f : Nat → Nat) (a k : Nat) :
    (X ++ [f a]) ++ (List.range' (a + 1) k).map f =
      X ++ (List.range' a (k + 1)).map f := by
  rw [List.range'_succ]
  simp [List.append_assoc]

theorem attemptLoop_attempt_lt (oracle : Nat → Outcome) (model : String)
    (maxRetries baseDelay maxDelay : Nat) :
    ∀ (fuel attempt rld : Nat) (lastError : Option JsError) (sleeps : List Nat),
      attempt ≤ (attemptLoop oracle model maxRetries baseDelay maxDelay
        fuel attempt rld lastError sleeps).attemptsMade ∧
      (0 < fuel → attempt < (attemptLoop oracle model maxRetries baseDelay maxDelay
        fuel attempt rld lastError sleeps).attemptsMade) := by
  intro fuel
  induction fuel with
  | zero =>
    intro attempt rld lastError sleeps
    exact ⟨le_refl _, by omega⟩
  | succ fuel ih =>
    intro attempt rld lastError sleeps
    simp only [attemptLoop]
    cases horacle : oracle attempt with
    | ok content total prompt completion =>
      dsimp only
      exact ⟨by omega, fun _ => by omega⟩
    | err e =>
      dsimp only
      by_cases hrate : isRateLimitError e = true
      · rw [if_pos hrate]
        by_cases hlt : attempt < maxRetries
        · rw [if_pos hlt]
          have := ih (attempt + 1) (backoffDelay baseDelay maxDelay attempt) (some e)
            (if 0 < rld then sleeps ++ [rld] else sleeps)
          exact ⟨by omega, fun _ => by omega⟩
        · rw [if_neg hlt]
          dsimp only
          exact ⟨by omega, fun _ => by omega⟩
      · rw [if_neg hrate]
        by_cases hretr : isRetriableError e = true ∧ attempt < maxRetries
        · rw [if_pos hretr]
          have := ih (attempt + 1) 0 (some e)
            ((if 0 < rld then sleeps ++ [rld] else sleeps) ++
              [backoffDelay baseDelay maxDelay attempt])
          exact ⟨by omega, fun _ => by omega⟩
        · rw [if_neg hretr]
          dsimp only
          exact ⟨by omega, fun _ => by omega⟩

end OpenAIClient

namespace OpenAIClient

theorem attemptLoop_loopSpec (oracle : Nat → Outcome) (model : String)
    (maxRetries baseDelay maxDelay : Nat)
    (hb : 0 < baseDelay) (hm : 0 < maxDelay) :
    ∀ (fuel attempt rld : Nat) (lastError : Option JsError) (sleeps : List Nat),
      fuel + attempt = maxRetries + 1 → attempt ≤ maxRetries →
      LoopSpec oracle maxRetries baseDelay maxDelay attempt rld sleeps
        (attemptLoop oracle model maxRetries baseDelay maxDelay
          fuel attempt rld lastError sleeps) := by
  intro fuel
  induction fuel with
  | zero =>
    intro attempt rld lastError sleeps hsum hle
    exact absurd hsum (by omega)
  | succ fuel ih =>
    intro attempt rld lastError sleeps hsum hle
    simp only [attemptLoop]
    cases horacle : oracle attempt with
    | ok content total prompt completion =>
      dsimp only
      unfold LoopSpec
      dsimp only
      refine ⟨⟨by omega, by omega⟩, ?_, ?_, ?_, ?_⟩
      · intro n hn1 hn2
        exact absurd hn2 (by omega)
      · have h0 : attempt + 1 - 1 - attempt = 0 := by omega
        rw [h0, flush_append]
        simp
      · intro n e hn1 hn2 hne _
        have hna : n = attempt := by omega
        rw [hna, horacle] at hne
        exact Outcome.noConfusion hne
      · intro n e hn1 hn2 hne _ _
        have hna : n = attempt := by omega
        rw [hna, horacle] at hne
        exact Outcome.noConfusion hne
    | err e =>
      dsimp only
      by_cases hrate : isRateLimitError e = true
      · rw [if_pos hrate]
        by_cases hlt : attempt < maxRetries
        · rw [if_pos hlt]
          obtain ⟨⟨h1a, h1b⟩, h2, h3, h4, h5⟩ :=
            ih (attempt + 1) (backoffDelay baseDelay maxDelay attempt) (some e)
              (if 0 < rld then sleeps ++ [rld] else sleeps) (by omega) (by omega)
          unfold LoopSpec
          refine ⟨⟨by omega, h1b⟩, ?_, ?_, ?_, ?_⟩
          · intro n hn1 hn2
            by_cases hna : n = attempt
            · exact ⟨e, hna ▸ horacle, rateLimit_retriable e hrate⟩
            · exact h2 n (by omega) hn2
          · rw [h3, if_pos (backoffDelay_pos baseDelay maxDelay attempt hb hm)]
            have hk : (attemptLoop oracle model maxRetries baseDelay maxDelay fuel
                (attempt + 1) (backoffDelay baseDelay maxDelay attempt) (some e)
                (if 0 < rld then sleeps ++ [rld] else sleeps)).attemptsMade - 1 -
                attempt =
                ((attemptLoop oracle model maxRetries baseDelay maxDelay fuel
                  (attempt + 1) (backoffDelay baseDelay maxDelay attempt) (some e)
                  (if 0 < rld then sleeps ++ [rld] else sleeps)).attemptsMade - 1 -
                  (attempt + 1)) + 1 := by omega
            rw [hk, append_backoff, flush_append]
          · intro n e' hn1 hn2 hne hret
            by_cases hna : n = attempt
            · subst hna
              rw [horacle] at hne
              injection hne with he
              subst he
              exact absurd hret (by simp [rateLimit_retriable e hrate])
            · exact h4 n e' (by omega) hn2 hne hret
          · intro n e' hn1 hn2 hne hret hnm
            by_cases hna : n = attempt
            · omega
            · exact h5 n e' (by omega) hn2 hne hret hnm
        · rw [if_neg hlt]
          unfold LoopSpec
          dsimp only
          refine ⟨⟨by omega, by omega⟩, ?_, ?_, ?_, ?_⟩
          · intro n hn1 hn2
            exact absurd hn2 (by omega)
          · have h0 : attempt + 1 - 1 - attempt = 0 := by omega
            rw [h0, flush_append]
            simp
          · intro n e' hn1 hn2 hne _
            have hna : n = attempt := by omega
            subst hna
            rw [horacle] at hne
            injection hne with he
            subst he
            exact ⟨rfl, rfl⟩
          · intro n e' hn1 hn2 _ _ hnm
            have hna : n = attempt := by omega
            exact absurd hnm (by omega)
      · rw [if_neg hrate]
        by_cases hretr : isRetriableError e = true ∧ attempt < maxRetries
        · rw [if_pos hretr]
          obtain ⟨⟨h1a, h1b⟩, h2, h3, h4, h5⟩ :=
            ih (attempt + 1) 0 (some e)
              ((if 0 < rld then sleeps ++ [rld] else sleeps) ++
                [backoffDelay baseDelay maxDelay attempt]) (by omega) (by omega)
          unfold LoopSpec
          refine ⟨⟨by omega, h1b⟩, ?_, ?_, ?_, ?_⟩
          · intro n hn1 hn2
            by_cases hna : n = attempt
            · exact ⟨e, hna ▸ horacle, hretr.1⟩
            · exact h2 n (by omega) hn2
          · rw [h3, if_neg (lt_irrefl 0), List.append_nil]
            have hk : (attemptLoop oracle model maxRetries baseDelay maxDelay fuel
                (attempt + 1) 0 (some e)
                ((if 0 < rld then sleeps ++ [rld] else sleeps) ++
                  [backoffDelay baseDelay maxDelay attempt])).attemptsMade - 1 -
                attempt =
                ((attemptLoop oracle model maxRetries baseDelay maxDelay fuel
                  (attempt + 1) 0 (some e)
                  ((if 0 < rld then sleeps ++ [rld] else sleeps) ++
                    [backoffDelay baseDelay maxDelay attempt])).attemptsMade - 1 -
                  (attempt + 1)) + 1 := by omega
            rw [hk, append_backoff, flush_append]
          · intro n e' hn1 hn2 hne hret
            by_cases hna : n = attempt
            · subst hna
              rw [horacle] at hne
              injection hne with he
              subst he
              exact absurd hret (by simp [hretr.1])
            · exact h4 n e' (by omega) hn2 hne hret
          · intro n e' hn1 hn2 hne hret hnm
            by_cases hna : n = attempt
            · omega
            · exact h5 n e' (by omega) hn2 hne hret hnm
        · rw [if_neg hretr]
          unfold LoopSpec
          dsimp only
          refine ⟨⟨by omega, by omega⟩, ?_, ?_, ?_, ?_⟩
          · intro n hn1 hn2
            exact absurd hn2 (by omega)
          · have h0 : attempt + 1 - 1 - attempt = 0 := by omega
            rw [h0, flush_append]
            simp
          · intro n e' hn1 hn2 hne _
            have hna : n = attempt := by omega
            subst hna
            rw [horacle] at hne
            injection hne with he
            subst he
            exact ⟨rfl, rfl⟩
          · intro n e' hn1 hn2 hne hret hnm
            have hna : n = attempt := by omega
            subst hna
            rw [horacle] at hne
            injection hne with he
            subst he
            exact absurd ⟨hret, by omega⟩ hretr

end OpenAIClient

namespace OpenAIClient

/-- C3: with a fresh client (no pending rate-limit delay) and an input
under the size ceiling, `createChatCompletion` makes at most
`maxRetries + 1` provider attempts; a further attempt follows a failure
only when the failure was retriable (status 429, ≥ 500 or 408, by
`isRetriableError`); the delay slept before retry `n + 1` is
`min(baseDelay · 2^n, maxDelay)`; every non-retriable failure is
rethrown immediately with no further attempt; and a retriable failure
within the budget is always retried. -/
theorem claim_C3 (messages : List ChatMessage) (opts : ChatOptions)
    (ropts : RetryOptions) (oracle : Nat → Outcome)
    (hb : 0 < ropts.baseDelay) (hm : 0 < ropts.maxDelay)
    (hin : estimateTokensSync (jsonStringify messages) ≤ opts.maxInputTokens) :
    (createChatCompletion messages opts ropts oracle 0).attemptsMade ≤
      ropts.maxRetries + 1 ∧
    (∀ n, n + 1 < (createChatCompletion messages opts ropts oracle 0).attemptsMade →
      ∃ e, oracle n = .err e ∧ isRetriableError e = true) ∧
    (createChatCompletion messages opts ropts oracle 0).sleeps =
      (List.range
        ((createChatCompletion messages opts ropts oracle 0).attemptsMade - 1)).map
        (backoffDelay ropts.baseDelay ropts.maxDelay) ∧
    (∀ n e, n < (createChatCompletion messages opts ropts oracle 0).attemptsMade →
      oracle n = .err e → isRetriableError e = false →
      (createChatCompletion messages opts ropts oracle 0).result = .error e ∧
      (createChatCompletion messages opts ropts oracle 0).attemptsMade = n + 1) ∧
    (∀ n e, n < (createChatCompletion messages opts ropts oracle 0).attemptsMade →
      oracle n = .err e → isRetriableError e = true → n < ropts.maxRetries →
      n + 1 < (createChatCompletion messages opts ropts oracle 0).attemptsMade) := by
  have hcc : createChatCompletion messages opts ropts oracle 0 =
      attemptLoop oracle opts.model ropts.maxRetries ropts.baseDelay ropts.maxDelay
        (ropts.maxRetries + 1) 0 0 none [] := by
    unfold createChatCompletion
    dsimp only
    rw [if_neg (by omega)]
  rw [hcc]
  obtain ⟨⟨h1a, h1b⟩, h2, h3, h4, h5⟩ :=
    attemptLoop_loopSpec oracle opts.model ropts.maxRetries ropts.baseDelay
      ropts.maxDelay hb hm (ropts.maxRetries + 1) 0 0 none [] (by omega) (by omega)
  refine ⟨h1b, ?_, ?_, ?_, ?_⟩
  · intro n hn
    exact h2 n (Nat.zero_le n) hn
  · rw [h3]
    simp [List.range_eq_range']
  · intro n e hn hne hret
    exact h4 n e (Nat.zero_le n) hn hne hret
  · intro n e hn hne hret hnm
    exact h5 n e (Nat.zero_le n) hn hne hret hnm

theorem claim_C3_witness :
    (0 < demoRetryOptions.baseDelay) ∧ (0 < demoRetryOptions.maxDelay) ∧
    (estimateTokensSync (jsonStringify []) ≤ demoOptions.maxInputTokens) ∧
    ((createChatCompletion [] demoOptions demoRetryOptions demoOracle 0).attemptsMade ≤
        demoRetryOptions.maxRetries + 1 ∧
      (∀ n, n + 1 <
          (createChatCompletion [] demoOptions demoRetryOptions demoOracle 0).attemptsMade →
        ∃ e, demoOracle n = .err e ∧ isRetriableError e = true) ∧
      (createChatCompletion [] demoOptions demoRetryOptions demoOracle 0).sleeps =
        (List.range
          ((createChatCompletion [] demoOptions demoRetryOptions demoOracle 0).attemptsMade
            - 1)).map
          (backoffDelay demoRetryOptions.baseDelay demoRetryOptions.maxDelay) ∧
      (∀ n e, n <
          (createChatCompletion [] demoOptions demoRetryOptions demoOracle 0).attemptsMade →
        demoOracle n = .err e → isRetriableError e = false →
        (createChatCompletion [] demoOptions demoRetryOptions demoOracle 0).result =
          .error e ∧
        (createChatCompletion [] demoOptions demoRetryOptions demoOracle 0).attemptsMade =
          n + 1) ∧
      (∀ n e, n <
          (createChatCompletion [] demoOptions demoRetryOptions demoOracle 0).attemptsMade →
        demoOracle n = .err e → isRetriableError e = true →
        n < demoRetryOptions.maxRetries →
        n + 1 <
          (createChatCompletion [] demoOptions demoRetryOptions demoOracle 0).attemptsMade)) :=
  ⟨by decide, by decide, by decide,
    claim_C3 [] demoOptions demoRetryOptions demoOracle
      (by decide) (by decide) (by decide)⟩

/-- C7: `createChatCompletion` fails before making any provider attempt
(and sleeps nothing) exactly when the estimated input token count —
`Math.ceil` of the serialized messages' UTF-16 length divided by 3.5 —
strictly exceeds the caller's `maxInputTokens` ceiling, and in that case
the result is the input-too-large error. -/
theorem claim_C7 (messages : List ChatMessage) (opts : ChatOptions)
    (ropts : RetryOptions) (oracle : Nat → Outcome) (rld0 : Nat) :
    ((createChatCompletion messages opts ropts oracle rld0).attemptsMade = 0 ↔
      opts.maxInputTokens < estimateTokensSync (jsonStringify messages)) ∧
    (opts.maxInputTokens < estimateTokensSync (jsonStringify messages) →
      (createChatCompletion messages opts ropts oracle rld0).result =
        .error (inputTooLargeError (estimateTokensSync (jsonStringify messages))
          opts.maxInputTokens) ∧
      (createChatCompletion messages opts ropts oracle rld0).sleeps = []) := by
  unfold createChatCompletion
  dsimp only
  by_cases h : opts.maxInputTokens < estimateTokensSync (jsonStringify messages)
  · rw [if_pos h]
    exact ⟨by simp [h], fun _ => ⟨rfl, rfl⟩⟩
  · rw [if_neg h]
    constructor
    · constructor
      · intro h0
        have := (attemptLoop_attempt_lt oracle opts.model ropts.maxRetries
          ropts.baseDelay ropts.maxDelay (ropts.maxRetries + 1) 0 rld0 none []).2
          (by omega)
        omega
      · intro hcontra
        exact absurd hcontra h
    · intro hcontra
      exact absurd hcontra h

theorem claim_C7_witness :
    ((createChatCompletion [⟨"user", "hi"⟩] tinyInputOptions demoRetryOptions
        demoOracle 0).attemptsMade = 0 ↔
      tinyInputOptions.maxInputTokens <
        estimateTokensSync (jsonStringify [⟨"user", "hi"⟩])) ∧
    (tinyInputOptions.maxInputTokens <
        estimateTokensSync (jsonStringify [⟨"user", "hi"⟩])) ∧
    ((createChatCompletion [⟨"user", "hi"⟩] tinyInputOptions demoRetryOptions
        demoOracle 0).result =
      .error (inputTooLargeError
        (estimateTokensSync (jsonStringify [⟨"user", "hi"⟩]))
        tinyInputOptions.maxInputTokens) ∧
      (createChatCompletion [⟨"user", "hi"⟩] tinyInputOptions demoRetryOptions
        demoOracle 0).sleeps = []) :=
  ⟨(claim_C7 [⟨"user", "hi"⟩] tinyInputOptions demoRetryOptions demoOracle 0).1,
    by decide,
    (claim_C7 [⟨"user", "hi"⟩] tinyInputOptions demoRetryOptions demoOracle 0).2
      (by decide)⟩

end OpenAIClient
